import Mathlib

/-!
# Verification of the Synapse window manager core (`src/core/window_manager.py`)

Shallow embedding conventions:

* Python integers are `ℤ` (arbitrary precision, no overflow).
* Python floor division `a // b` is `pyIntDiv a b`, which agrees with Python for
  every nonzero divisor (Python raises `ZeroDivisionError` on `b = 0`; the layout
  code only divides by the positive literals 2 and 3).
* IEEE-754 double arithmetic matters for the `CENTER`/`CENTER_SMALL` layout
  modes, where the source multiplies a width by float literals such as `0.7`.
  A double is modelled exactly as a dyadic rational `Dyadic` (mantissa times a
  power of two) and `roundFracToDouble` performs round-to-nearest, ties-to-even,
  with unbounded exponent range (no overflow or subnormals; every value reached
  by the claims is far inside the normal range).  A float literal `0.15` in the
  source is translated as `pyFloatLit 15 100`, the double nearest `15/100`.
  Elsewhere (animation easing, monitor-relative coordinates) float arithmetic is
  idealised as exact rational arithmetic, and the `time.time()` timestamp on
  history entries is an abstract integer clock supplied by the environment.
* OS calls (window queries, monitor enumeration, the clock) are modelled as an
  oracle structure `WinEnv` passed to the operations; a call that can fail
  returns an `Option`.  A Python exception escaping an orchestrator operation is
  modelled by a `none` result value (`OpResult.res = none`).
* The `HistoryManager`'s dict of deques is an association list from window
  handle to queue contents (oldest first), mirroring insertion-order updates.
-/

-- ════════════════════════════════════════════════════════════════════════════
-- Python integer primitives
-- ════════════════════════════════════════════════════════════════════════════

/-- Python floor division `a // b`.  Lean's `Int` division is Euclidean, which
coincides with floor division for positive divisors; for negative divisors the
signs of both operands are flipped first.  (`b = 0` raises in Python and is
never reached by the layout code; the model returns 0 there.) -/
def pyIntDiv (a b : ℤ) : ℤ :=
  if 0 < b then a / b else if b < 0 then (-a) / (-b) else 0

/-- Python `int(q)` for an exact rational value: truncation toward zero. -/
def pyInt (q : ℚ) : ℤ := if 0 ≤ q then ⌊q⌋ else ⌈q⌉

-- ════════════════════════════════════════════════════════════════════════════
-- IEEE-754 binary64 model (exact dyadic rationals)
-- ════════════════════════════════════════════════════════════════════════════

/-- An exact binary64 value: `m * 2 ^ e`. -/
structure Dyadic where
  m : ℤ
  e : ℤ
deriving DecidableEq, Repr

/-- Scale the positive fraction `n / d` into the binade `[2^52, 2^53)` by
doubling the numerator or denominator, tracking the applied power of two.
Fuel-bounded structural recursion; 4200 units of fuel cover every magnitude the
program can produce (far beyond double range). -/
def mantissaLoop : ℕ → ℤ → ℤ → ℤ → ℤ × ℤ × ℤ
  | 0, n, d, k => (n, d, k)
  | fuel + 1, n, d, k =>
    if n < 4503599627370496 * d then mantissaLoop fuel (n * 2) d (k - 1)
    else if 9007199254740992 * d ≤ n then mantissaLoop fuel n (d * 2) (k + 1)
    else (n, d, k)

/-- The binary64 value nearest to `n / d` (`d > 0`), ties to even. -/
def roundFracToDouble (n d : ℤ) : Dyadic :=
  if n = 0 then ⟨0, 0⟩
  else
    let s : ℤ := if n < 0 then -1 else 1
    let t := mantissaLoop 4200 (s * n) d 0
    let q := t.1 / t.2.1
    let r := t.1 % t.2.1
    let mant :=
      if 2 * r < t.2.1 then q
      else if t.2.1 < 2 * r then q + 1
      else if q % 2 = 0 then q else q + 1
    ⟨s * mant, t.2.2⟩

/-- A Python float literal written as the decimal fraction `n / d`. -/
def pyFloatLit (n d : ℤ) : Dyadic := roundFracToDouble n d

/-- Conversion of a Python int to a double (exact below `2^53`). -/
def intToDouble (w : ℤ) : Dyadic := roundFracToDouble w 1

/-- Double multiplication: exact product, rounded back to a double. -/
def mulDouble (a b : Dyadic) : Dyadic :=
  let r := roundFracToDouble (a.m * b.m) 1
  ⟨r.m, r.e + a.e + b.e⟩

/-- Python `int(x)` on a double: truncation toward zero. -/
def truncDouble (x : Dyadic) : ℤ :=
  if 0 ≤ x.e then x.m * 2 ^ x.e.toNat
  else
    let d : ℤ := 2 ^ (-x.e).toNat
    if 0 ≤ x.m then x.m / d else -((-x.m) / d)

/-- Python `int(w * c)` for an int `w` and a float constant `c`, exactly as
evaluated in binary64: convert `w` to double, multiply, truncate. -/
def intOfFloatProd (w : ℤ) (c : Dyadic) : ℤ := truncDouble (mulDouble (intToDouble w) c)

-- ════════════════════════════════════════════════════════════════════════════
-- Geometry primitives and configuration (`Rect`, `TileMode`, `Config`)
-- ════════════════════════════════════════════════════════════════════════════

/-- `Rect` dataclass: x/y/width/height in pixels. -/
structure Rect where
  x : ℤ
  y : ℤ
  width : ℤ
  height : ℤ
deriving DecidableEq, Repr

/-- `Rect.from_ltrb` classmethod. -/
def Rect.from_ltrb (l t r b : ℤ) : Rect := ⟨l, t, r - l, b - t⟩

/-- `TileMode` enumeration. -/
inductive TileMode where
  | LEFT_HALF | RIGHT_HALF | TOP_HALF | BOTTOM_HALF
  | LEFT_THIRD | CENTER_THIRD | RIGHT_THIRD
  | LEFT_TWO_THIRDS | RIGHT_TWO_THIRDS
  | MAXIMIZE | CENTER | CENTER_SMALL
deriving DecidableEq, Repr

/-- `Config` dataclass.  `history_size` is kept as a natural number: it is used
only as a deque capacity (a negative capacity makes the Python `deque`
constructor raise at startup, outside the behaviours claimed). -/
structure Config where
  gap : ℤ := 10
  margin : ℤ := 15
  animation_enabled : Bool := false
  animation_duration_ms : ℤ := 150
  animation_steps : ℤ := 10
  history_size : ℕ := 50
  excluded_classes : List String :=
    ["Shell_TrayWnd", "Progman", "WorkerW", "Windows.UI.Core.CoreWindow",
     "ApplicationFrameWindow"]
  excluded_titles : List String := ["Program Manager", "Windows Input Experience"]
deriving DecidableEq, Repr

/-- The default configuration (all dataclass field defaults). -/
def defaultConfig : Config := {}

-- ════════════════════════════════════════════════════════════════════════════
-- `LayoutCalculator`
-- ════════════════════════════════════════════════════════════════════════════

/-- `LayoutCalculator.calculate(mode, work_area)`: direct translation of the
layout dictionary; `//` is `pyIntDiv`, `int(w * 0.15)` is
`intOfFloatProd w (pyFloatLit 15 100)`, and so on. -/
def calculate (cfg : Config) (mode : TileMode) (work_area : Rect) : Rect :=
  let gap := cfg.gap
  let margin := cfg.margin
  let w := work_area.width
  let h := work_area.height
  let x := work_area.x
  let y := work_area.y
  let uw := w - margin * 2
  let uh := h - margin * 2
  match mode with
  | .LEFT_HALF => ⟨x + margin, y + margin, pyIntDiv (uw - gap) 2, uh⟩
  | .RIGHT_HALF => ⟨x + margin + pyIntDiv (uw + gap) 2, y + margin, pyIntDiv (uw - gap) 2, uh⟩
  | .TOP_HALF => ⟨x + margin, y + margin, uw, pyIntDiv (uh - gap) 2⟩
  | .BOTTOM_HALF => ⟨x + margin, y + margin + pyIntDiv (uh + gap) 2, uw, pyIntDiv (uh - gap) 2⟩
  | .LEFT_THIRD => ⟨x + margin, y + margin, pyIntDiv (uw - gap * 2) 3, uh⟩
  | .CENTER_THIRD =>
      ⟨x + margin + pyIntDiv (uw - gap * 2) 3 + gap, y + margin, pyIntDiv (uw - gap * 2) 3, uh⟩
  | .RIGHT_THIRD =>
      ⟨x + margin + 2 * (pyIntDiv (uw - gap * 2) 3 + gap), y + margin,
       pyIntDiv (uw - gap * 2) 3, uh⟩
  | .LEFT_TWO_THIRDS =>
      ⟨x + margin, y + margin, pyIntDiv (2 * (uw - gap * 2)) 3 + gap, uh⟩
  | .RIGHT_TWO_THIRDS =>
      ⟨x + margin + pyIntDiv (uw - gap * 2) 3 + gap, y + margin,
       pyIntDiv (2 * (uw - gap * 2)) 3 + gap, uh⟩
  | .MAXIMIZE => ⟨x + margin, y + margin, uw, uh⟩
  | .CENTER =>
      ⟨x + intOfFloatProd w (pyFloatLit 15 100),
       y + intOfFloatProd h (pyFloatLit 1 10),
       intOfFloatProd w (pyFloatLit 7 10),
       intOfFloatProd h (pyFloatLit 8 10)⟩
  | .CENTER_SMALL =>
      ⟨x + intOfFloatProd w (pyFloatLit 25 100),
       y + intOfFloatProd h (pyFloatLit 2 10),
       intOfFloatProd w (pyFloatLit 5 10),
       intOfFloatProd h (pyFloatLit 6 10)⟩

/-- `LayoutCalculator.calculate_grid(row, col, rows, cols, work_area)`. -/
def calculate_grid (cfg : Config) (row col rows cols : ℤ) (work_area : Rect) : Rect :=
  let gap := cfg.gap
  let margin := cfg.margin
  let uw := work_area.width - margin * 2 - gap * (cols - 1)
  let uh := work_area.height - margin * 2 - gap * (rows - 1)
  let cell_w := pyIntDiv uw cols
  let cell_h := pyIntDiv uh rows
  ⟨work_area.x + margin + col * (cell_w + gap),
   work_area.y + margin + row * (cell_h + gap),
   cell_w, cell_h⟩

-- ════════════════════════════════════════════════════════════════════════════
-- `AnimationEngine`
-- ════════════════════════════════════════════════════════════════════════════

/-- The `(left, top, right, bottom)` tuple returned by
`WindowUtils.get_extended_frame_offsets`. -/
structure FrameOffsets where
  left : ℤ
  top : ℤ
  right : ℤ
  bottom : ℤ
deriving DecidableEq, Repr

/-- `AnimationEngine._apply_position`: the raw `MoveWindow` rectangle after
frame-offset compensation (note the source adds only `off_b` to the height). -/
def applyPosition (r : Rect) (off : FrameOffsets) : Rect :=
  ⟨r.x - off.left, r.y - off.top, r.width + off.left + off.right, r.height + off.bottom⟩

/-- `AnimationEngine._ease_out_cubic`. -/
def easeOutCubic (t : ℚ) : ℚ := 1 - (1 - t) ^ (3 : ℕ)

/-- One interpolated rectangle of the animation loop (float arithmetic
idealised as exact rationals, `int(...)` truncation kept). -/
def interpolated (start_ end_ : Rect) (t : ℚ) : Rect :=
  ⟨pyInt ((start_.x : ℚ) + ((end_.x : ℚ) - (start_.x : ℚ)) * t),
   pyInt ((start_.y : ℚ) + ((end_.y : ℚ) - (start_.y : ℚ)) * t),
   pyInt ((start_.width : ℚ) + ((end_.width : ℚ) - (start_.width : ℚ)) * t),
   pyInt ((start_.height : ℚ) + ((end_.height : ℚ) - (start_.height : ℚ)) * t)⟩

/-- `AnimationEngine.animate`, returning the list of applied `MoveWindow`
rectangles in order.  Disabled animation applies the end rectangle once.
`animation_steps = 0` makes the source raise `ZeroDivisionError` computing
`duration / steps` before the loop (modelled as `none`); a negative step count
makes `range(1, steps + 1)` empty, so nothing is applied.  The wall-clock
`time.sleep` between steps is not modelled. -/
def animate (cfg : Config) (start_ end_ : Rect) (off : FrameOffsets) : Option (List Rect) :=
  if ¬cfg.animation_enabled then some [applyPosition end_ off]
  else if cfg.animation_steps = 0 then none
  else
    some ((List.range cfg.animation_steps.toNat).map (fun i : ℕ =>
      applyPosition
        (interpolated start_ end_
          (easeOutCubic (((i : ℚ) + 1) / (cfg.animation_steps : ℚ)))) off))

-- ════════════════════════════════════════════════════════════════════════════
-- `HistoryManager`
-- ════════════════════════════════════════════════════════════════════════════

/-- `WindowState` dataclass; the `time.time()` float timestamp is an abstract
integer clock tick. -/
structure WindowState where
  hwnd : ℤ
  rect : Rect
  timestamp : ℤ
deriving DecidableEq, Repr

/-- The `HistoryManager._history` dict: association list from window handle to
the deque contents, oldest first. -/
abbrev Hist := List (ℤ × List WindowState)

/-- Python `hwnd in self._history` / `self._history[hwnd]`. -/
def histLookup : Hist → ℤ → Option (List WindowState)
  | [], _ => none
  | (k, q) :: rest, h => if k = h then some q else histLookup rest h

/-- `self._history[hwnd] = q`: replace in place, or add a new binding. -/
def histSet : Hist → ℤ → List WindowState → Hist
  | [], h, q => [(h, q)]
  | (k, v) :: rest, h, q => if k = h then (k, q) :: rest else (k, v) :: histSet rest h q

/-- `deque(maxlen=m).append`: append on the right, evicting from the left once
the capacity `m` is exceeded. -/
def pushMax (m : ℕ) (q : List WindowState) (s : WindowState) : List WindowState :=
  (q ++ [s]).drop (q.length + 1 - m)

/-- `HistoryManager.save_state(hwnd)`.  `info` is the result of the OS query
`WindowUtils.get_window_info(hwnd)` (only the rectangle matters here); a `none`
query result returns without saving. -/
def save_state (m : ℕ) (st : Hist) (hwnd : ℤ) (info : Option Rect) (now : ℤ) : Hist :=
  match info with
  | none => st
  | some r => histSet st hwnd (pushMax m ((histLookup st hwnd).getD []) ⟨hwnd, r, now⟩)

/-- `HistoryManager.get_previous_state(hwnd)`: returns the popped-to state (if
any) together with the updated history. -/
def get_previous_state (st : Hist) (hwnd : ℤ) : Option WindowState × Hist :=
  match histLookup st hwnd with
  | none => (none, st)
  | some q =>
    if q.length < 2 then (none, st)
    else (q.dropLast.getLast?, histSet st hwnd q.dropLast)

-- ════════════════════════════════════════════════════════════════════════════
-- `MonitorManager`
-- ════════════════════════════════════════════════════════════════════════════

/-- `MonitorInfo` dataclass (`dpi_scale` idealised as an exact rational). -/
structure MonitorInfo where
  handle : ℤ
  work_area : Rect
  full_area : Rect
  is_primary : Bool
  dpi_scale : ℚ := 1
deriving DecidableEq, Repr

/-- `MonitorManager.primary`: first monitor flagged primary, else the first
monitor, else none. -/
def primaryMonitor (ms : List MonitorInfo) : Option MonitorInfo :=
  (ms.find? (·.is_primary)).orElse (fun _ => ms.head?)

/-- `MonitorManager.get_next_monitor`: the `try list.index / except` is modelled
by the decidable membership test (Python `index` succeeds exactly on members,
returning the first structurally-equal element). -/
def get_next_monitor (ms : List MonitorInfo) (current : MonitorInfo) : MonitorInfo :=
  if ms.isEmpty then current
  else if current ∈ ms then ms.getD ((ms.indexOf current + 1) % ms.length) current
  else ms.headD current

/-- `MonitorManager.get_prev_monitor` (Python `%` on a possibly negative index
is floor-mod, i.e. `Int.emod` for the positive list length). -/
def get_prev_monitor (ms : List MonitorInfo) (current : MonitorInfo) : MonitorInfo :=
  if ms.isEmpty then current
  else if current ∈ ms then
    ms.getD (((ms.indexOf current : ℤ) - 1) % (ms.length : ℤ)).toNat current
  else ms.headD current

-- ════════════════════════════════════════════════════════════════════════════
-- Window query oracle and `WindowManager` orchestrator
-- ════════════════════════════════════════════════════════════════════════════

/-- `WindowInfo` dataclass. -/
structure WindowInfo where
  hwnd : ℤ
  title : String
  class_name : String
  rect : Rect
  process_id : ℤ
  is_visible : Bool
  is_minimized : Bool
  is_maximized : Bool
deriving DecidableEq, Repr

/-- Oracle for every OS query an orchestrator operation performs.  Results are
fixed for the duration of one operation (single-threaded core, §5 of the
spec). -/
structure WinEnv where
  foreground : ℤ
  isWindow : ℤ → Bool
  isVisible : ℤ → Bool
  isToolWindow : ℤ → Bool
  isChildWindow : ℤ → Bool
  className : ℤ → String
  windowTitle : ℤ → String
  monitorFromWindow : ℤ → Option ℤ
  windowInfo : ℤ → Option WindowInfo
  frameOffsets : ℤ → FrameOffsets
  isMaximized : ℤ → Bool
  now : ℤ

/-- `MonitorManager.get_monitor_for_window`: nearest monitor handle from the
OS (the `except` branch and a missing handle both fall back to the primary). -/
def get_monitor_for_window (env : WinEnv) (ms : List MonitorInfo) (hwnd : ℤ) :
    Option MonitorInfo :=
  match env.monitorFromWindow hwnd with
  | none => primaryMonitor ms
  | some hm =>
    match ms.find? (fun mo => mo.handle == hm) with
    | some mo => some mo
    | none => primaryMonitor ms

/-- `WindowManager._get_valid_hwnd`.  Python's `hwnd or GetForegroundWindow()`
treats both `None` and `0` as falsy. -/
def getValidHwnd (cfg : Config) (env : WinEnv) (hwndOpt : Option ℤ) : Option ℤ :=
  let hwnd := match hwndOpt with
    | some h => if h ≠ 0 then h else env.foreground
    | none => env.foreground
  if ¬env.isWindow hwnd || ¬env.isVisible hwnd then none
  else if env.isToolWindow hwnd || env.isChildWindow hwnd then none
  else if env.className hwnd ∈ cfg.excluded_classes then none
  else if env.windowTitle hwnd ∈ cfg.excluded_titles then none
  else some hwnd

/-- Outcome of one orchestrator operation: the returned boolean (`none` when a
Python exception escapes), the final history, and the applied `MoveWindow`
rectangles in order. -/
structure OpResult where
  res : Option Bool
  hist : Hist
  moves : List Rect
deriving DecidableEq, Repr

/-- The common tail of every move operation: fetch the frame offsets, run the
animation loop on the prepared window, and report success — a `none` from
`animate` (the `ZeroDivisionError` for `animation_steps = 0`) escapes as an
exception (`res = none`). -/
def animateStep (cfg : Config) (env : WinEnv) (hwnd : ℤ) (st1 : Hist)
    (current target : Rect) : OpResult :=
  match animate cfg current target (env.frameOffsets hwnd) with
  | none => ⟨none, st1, []⟩
  | some mv => ⟨some true, st1, mv⟩

/-- `WindowManager.tile(mode, hwnd)`.  Order as in the source: validate,
save history, resolve monitor, compute target, restore-if-maximized (an OS-only
effect), fetch offsets and the current rectangle, animate.  A vanished window
(`get_window_info(hwnd).rect` on `None`) raises `AttributeError`, and
`animation_steps = 0` raises `ZeroDivisionError`: both give `res = none`. -/
def tile (cfg : Config) (env : WinEnv) (ms : List MonitorInfo) (mode : TileMode)
    (hwndOpt : Option ℤ) (st : Hist) : OpResult :=
  match getValidHwnd cfg env hwndOpt with
  | none => ⟨some false, st, []⟩
  | some hwnd =>
    let st1 := save_state cfg.history_size st hwnd ((env.windowInfo hwnd).map (·.rect)) env.now
    match get_monitor_for_window env ms hwnd with
    | none => ⟨some false, st1, []⟩
    | some monitor =>
      let target := calculate cfg mode monitor.work_area
      match env.windowInfo hwnd with
      | none => ⟨none, st1, []⟩
      | some info => animateStep cfg env hwnd st1 info.rect target

/-- `WindowManager.grid(row, col, rows, cols, hwnd)`: identical skeleton with
the grid cell as target. -/
def grid (cfg : Config) (env : WinEnv) (ms : List MonitorInfo) (row col rows cols : ℤ)
    (hwndOpt : Option ℤ) (st : Hist) : OpResult :=
  match getValidHwnd cfg env hwndOpt with
  | none => ⟨some false, st, []⟩
  | some hwnd =>
    let st1 := save_state cfg.history_size st hwnd ((env.windowInfo hwnd).map (·.rect)) env.now
    match get_monitor_for_window env ms hwnd with
    | none => ⟨some false, st1, []⟩
    | some monitor =>
      let target := calculate_grid cfg row col rows cols monitor.work_area
      match env.windowInfo hwnd with
      | none => ⟨none, st1, []⟩
      | some info => animateStep cfg env hwnd st1 info.rect target

/-- `WindowManager.move_to_monitor(direction, hwnd)`: preserves the relative
position/size fractions (float division idealised as exact rationals). -/
def move_to_monitor (cfg : Config) (env : WinEnv) (ms : List MonitorInfo)
    (direction : String) (hwndOpt : Option ℤ) (st : Hist) : OpResult :=
  match getValidHwnd cfg env hwndOpt with
  | none => ⟨some false, st, []⟩
  | some hwnd =>
    let st1 := save_state cfg.history_size st hwnd ((env.windowInfo hwnd).map (·.rect)) env.now
    match get_monitor_for_window env ms hwnd with
    | none => ⟨some false, st1, []⟩
    | some current_monitor =>
      let target_monitor :=
        if direction = "next" then get_next_monitor ms current_monitor
        else get_prev_monitor ms current_monitor
      match env.windowInfo hwnd with
      | none => ⟨some false, st1, []⟩
      | some info =>
        let wa := current_monitor.work_area
        let ta := target_monitor.work_area
        let rel_x : ℚ := ((info.rect.x - wa.x : ℤ) : ℚ) / (wa.width : ℚ)
        let rel_y : ℚ := ((info.rect.y - wa.y : ℤ) : ℚ) / (wa.height : ℚ)
        let rel_w : ℚ := (info.rect.width : ℚ) / (wa.width : ℚ)
        let rel_h : ℚ := (info.rect.height : ℚ) / (wa.height : ℚ)
        let new_rect : Rect :=
          ⟨pyInt ((ta.x : ℚ) + rel_x * (ta.width : ℚ)),
           pyInt ((ta.y : ℚ) + rel_y * (ta.height : ℚ)),
           pyInt (rel_w * (ta.width : ℚ)),
           pyInt (rel_h * (ta.height : ℚ))⟩
        animateStep cfg env hwnd st1 info.rect new_rect

/-- `WindowManager.undo(hwnd)`: applies the previous state through
`_apply_position` directly (one instantaneous move, no animation loop) and
leaves the history exactly as `get_previous_state` left it. -/
def undo (cfg : Config) (env : WinEnv) (hwndOpt : Option ℤ) (st : Hist) : OpResult :=
  match getValidHwnd cfg env hwndOpt with
  | none => ⟨some false, st, []⟩
  | some hwnd =>
    match get_previous_state st hwnd with
    | (none, st') => ⟨some false, st', []⟩
    | (some prev, st') => ⟨some true, st', [applyPosition prev.rect (env.frameOffsets hwnd)]⟩

-- ════════════════════════════════════════════════════════════════════════════
-- `Config.load` (file-system oracle)
-- ════════════════════════════════════════════════════════════════════════════

/-- Outcome of `open(path) / json.load / Config(**data)` as one oracle value:
`parsed c` for a readable well-formed file, `malformed` for any exception other
than `FileNotFoundError` (unreadable file, JSON error, unexpected fields —
all caught by the bare `except Exception`), `missing` for `FileNotFoundError`. -/
inductive ConfigReadResult where
  | parsed (c : Config)
  | malformed
  | missing
deriving DecidableEq, Repr

/-- `Config.load`.  `writeOk` tells whether `config.save(path)` (executed only
in the `FileNotFoundError` branch) succeeds; a failing write raises out of
`load` because the `except Exception` clause does not guard the handler body.
The result carries the loaded config and whether defaults were written back. -/
def configLoad (read : ConfigReadResult) (writeOk : Bool) : Except Unit (Config × Bool) :=
  match read with
  | .parsed c => .ok (c, false)
  | .malformed => .ok (defaultConfig, false)
  | .missing => if writeOk then .ok (defaultConfig, true) else .error ()

-- ════════════════════════════════════════════════════════════════════════════
-- Helper lemmas
-- ════════════════════════════════════════════════════════════════════════════

theorem pyIntDiv_two (a : ℤ) : pyIntDiv a 2 = a / 2 := by
  simp [pyIntDiv]

theorem pyInt_intCast (n : ℤ) : pyInt (n : ℚ) = n := by
  unfold pyInt
  rcases le_or_lt 0 (n : ℚ) with hn | hn
  · rw [if_pos hn, Int.floor_intCast]
  · rw [if_neg (not_le.mpr hn), Int.ceil_intCast]

-- ════════════════════════════════════════════════════════════════════════════
-- C1
-- ════════════════════════════════════════════════════════════════════════════

/-- C1 counterexample: on the 1920×1040 work area with gap 10 and margin 15 the
halves do NOT have width 942 / right x 967 as claimed — the usable width is
1920 − 2·15 = 1890, so each half is (1890 − 10) // 2 = 940 wide. -/
theorem C1_counterexample :
    ¬(calculate defaultConfig .LEFT_HALF ⟨0, 0, 1920, 1040⟩ = ⟨15, 15, 942, 1010⟩ ∧
      calculate defaultConfig .RIGHT_HALF ⟨0, 0, 1920, 1040⟩ = ⟨967, 15, 942, 1010⟩) := by
  decide

/-- C1 (amended): for work area Rect(0,0,1920,1040) with gap 10 and margin 15,
`calculate` yields Rect(15,15,940,1010) for `LEFT_HALF` and
Rect(965,15,940,1010) for `RIGHT_HALF` (940 + 10 + 940 = 1890 = 1920 − 2·15). -/
theorem C1_halves_1920x1040 :
    calculate defaultConfig .LEFT_HALF ⟨0, 0, 1920, 1040⟩ = ⟨15, 15, 940, 1010⟩ ∧
    calculate defaultConfig .RIGHT_HALF ⟨0, 0, 1920, 1040⟩ = ⟨965, 15, 940, 1010⟩ := by
  decide

-- ════════════════════════════════════════════════════════════════════════════
-- C3
-- ════════════════════════════════════════════════════════════════════════════

/-- C3: for every work area (x, y, w, h) and every gap g and margin m, the two
half widths plus the gap reconstruct w − 2m up to one pixel of truncation loss,
and both halves share the inset area's y and height. -/
theorem C3_half_width_sum (g m x y w h : ℤ) :
    let cfg : Config := { defaultConfig with gap := g, margin := m }
    let L := calculate cfg .LEFT_HALF ⟨x, y, w, h⟩
    let R := calculate cfg .RIGHT_HALF ⟨x, y, w, h⟩
    (w - 2 * m - 1 ≤ L.width + g + R.width ∧ L.width + g + R.width ≤ w - 2 * m) ∧
    L.y = y + m ∧ L.height = h - 2 * m ∧ R.y = y + m ∧ R.height = h - 2 * m := by
  simp only [calculate, pyIntDiv_two, and_true, true_and]
  omega

-- ════════════════════════════════════════════════════════════════════════════
-- C8
-- ════════════════════════════════════════════════════════════════════════════

/-- C8 counterexample: `Config.load` CAN raise — when the file is missing and
writing the defaults back fails, the exception from `config.save(path)` inside
the `except FileNotFoundError` handler propagates uncaught. -/
theorem C8_counterexample : configLoad .missing false = .error () := by rfl

/-- C8 (amended): `Config.load` returns the parsed configuration for a
well-formed file, returns the in-memory defaults (warning logged, no crash) for
a malformed or unreadable file, and for a missing file returns the defaults and
writes them back — but if that write-back itself fails, the write error
propagates out of `load`. -/
theorem C8_load_behaviour :
    (∀ (c : Config) (w : Bool), configLoad (.parsed c) w = .ok (c, false)) ∧
    (∀ w : Bool, configLoad .malformed w = .ok (defaultConfig, false)) ∧
    configLoad .missing true = .ok (defaultConfig, true) ∧
    configLoad .missing false = .error () := by
  exact ⟨fun _ _ => rfl, fun _ => rfl, rfl, rfl⟩

-- ════════════════════════════════════════════════════════════════════════════
-- C9
-- ════════════════════════════════════════════════════════════════════════════

/-- C9 counterexample: on the work area (0,0,90,100) with the default gap and
margin, `calculate(CENTER)` has width `int(90 * 0.7) = 62` in binary64
arithmetic, not `⌊0.7·90⌋ = 63` as the claim's exact-floor formula requires. -/
theorem C9_counterexample :
    calculate defaultConfig .CENTER ⟨0, 0, 90, 100⟩ ≠ ⟨0 + 13, 0 + 10, 63, 80⟩ := by
  decide

/-- C9 (amended): `CENTER` and `CENTER_SMALL` ignore the configured gap and
margin entirely (the result depends only on the work area, for every
configuration), and the components are the binary64 products truncated, which
can fall one pixel below the exact floor: at width 90 the `CENTER` width is 62,
not ⌊0.7·90⌋ = 63.  On a (x,y,1920,1040) work area every component happens to
equal the exact floor: Rect(x+288, y+104, 1344, 832) and
Rect(x+480, y+208, 960, 624). -/
theorem C9_center_modes :
    (∀ (c c' : Config) (area : Rect),
        calculate c .CENTER area = calculate c' .CENTER area ∧
        calculate c .CENTER_SMALL area = calculate c' .CENTER_SMALL area) ∧
    (∀ (c : Config) (x y : ℤ),
        calculate c .CENTER ⟨x, y, 1920, 1040⟩ = ⟨x + 288, y + 104, 1344, 832⟩ ∧
        calculate c .CENTER_SMALL ⟨x, y, 1920, 1040⟩ = ⟨x + 480, y + 208, 960, 624⟩) ∧
    calculate defaultConfig .CENTER ⟨0, 0, 90, 100⟩ = ⟨13, 10, 62, 80⟩ := by
  refine ⟨fun c c' area => ⟨rfl, rfl⟩, fun c x y => ⟨?_, ?_⟩, by decide⟩
  · simp only [calculate,
      show intOfFloatProd 1920 (pyFloatLit 15 100) = 288 from by decide,
      show intOfFloatProd 1040 (pyFloatLit 1 10) = 104 from by decide,
      show intOfFloatProd 1920 (pyFloatLit 7 10) = 1344 from by decide,
      show intOfFloatProd 1040 (pyFloatLit 8 10) = 832 from by decide]
  · simp only [calculate,
      show intOfFloatProd 1920 (pyFloatLit 25 100) = 480 from by decide,
      show intOfFloatProd 1040 (pyFloatLit 2 10) = 208 from by decide,
      show intOfFloatProd 1920 (pyFloatLit 5 10) = 960 from by decide,
      show intOfFloatProd 1040 (pyFloatLit 6 10) = 624 from by decide]

-- ════════════════════════════════════════════════════════════════════════════
-- History lemmas
-- ════════════════════════════════════════════════════════════════════════════

theorem histLookup_histSet_self (st : Hist) (h : ℤ) (q : List WindowState) :
    histLookup (histSet st h q) h = some q := by
  induction st with
  | nil => simp [histSet, histLookup]
  | cons kv rest ih =>
    obtain ⟨k, v⟩ := kv
    by_cases hk : k = h
    · simp [histSet, histLookup, hk]
    · simp [histSet, histLookup, hk, ih]

theorem histLookup_histSet_ne (st : Hist) (h h' : ℤ) (q : List WindowState)
    (hne : h' ≠ h) : histLookup (histSet st h q) h' = histLookup st h' := by
  have hne' : h ≠ h' := Ne.symm hne
  induction st with
  | nil => simp [histSet, histLookup, hne']
  | cons kv rest ih =>
    obtain ⟨k, v⟩ := kv
    by_cases hk : k = h
    · subst hk
      simp [histSet, histLookup, hne']
    · simp [histSet, histLookup, hk, ih]

-- ════════════════════════════════════════════════════════════════════════════
-- C10
-- ════════════════════════════════════════════════════════════════════════════

/-- C10: `get_previous_state(h)` mutates at most the queue of handle `h`
(every other handle's lookup is untouched); when it returns none the history is
exactly the input history (nothing popped, no queue created); when it returns a
state the queue of `h` shrinks by exactly one entry (it becomes the old queue
without its last element). -/
theorem C10_get_previous_state_frame (st : Hist) (h : ℤ) :
    ((get_previous_state st h).1 = none → (get_previous_state st h).2 = st) ∧
    (∀ h', h' ≠ h → histLookup (get_previous_state st h).2 h' = histLookup st h') ∧
    (∀ s, (get_previous_state st h).1 = some s →
      ∃ q, histLookup st h = some q ∧ 2 ≤ q.length ∧
        histLookup (get_previous_state st h).2 h = some q.dropLast ∧
        q.dropLast.length + 1 = q.length) := by
  cases hq : histLookup st h with
  | none =>
    refine ⟨fun _ => ?_, fun h' _ => ?_, fun s hs => ?_⟩
    · simp [get_previous_state, hq]
    · simp [get_previous_state, hq]
    · simp [get_previous_state, hq] at hs
  | some q =>
    by_cases hlen : q.length < 2
    · refine ⟨fun _ => ?_, fun h' _ => ?_, fun s hs => ?_⟩
      · simp [get_previous_state, hq, hlen]
      · simp [get_previous_state, hq, hlen]
      · simp [get_previous_state, hq, hlen] at hs
    · have hgp : get_previous_state st h = (q.dropLast.getLast?, histSet st h q.dropLast) := by
        simp [get_previous_state, hq, hlen]
      rw [hgp]
      refine ⟨fun hnone => ?_, fun h' hne => histLookup_histSet_ne st h h' _ hne,
        fun s hs => ⟨q, rfl, by omega, histLookup_histSet_self st h _, ?_⟩⟩
      · exfalso
        have hne : q.dropLast ≠ [] := by
          intro he
          have hl := List.length_dropLast q
          rw [he] at hl
          simp at hl
          omega
        exact hne (List.getLast?_eq_none_iff.mp hnone)
      · have := List.length_dropLast q
        omega

-- ════════════════════════════════════════════════════════════════════════════
-- C4
-- ════════════════════════════════════════════════════════════════════════════

/-- C4: with fewer than two saved states `get_previous_state` returns none and
leaves the history untouched; with exactly the two states `s1` then `s2` it
pops `s2`, returns `s1`, and every further call returns none; and `undo`
applies the returned state through a single instantaneous `_apply_position`
move (no animation loop) with the history exactly as `get_previous_state` left
it (no new entry pushed for the undo itself). -/
theorem C4_undo_one_level (st : Hist) (h : ℤ) :
    ((∀ q, histLookup st h = some q → q.length < 2) → get_previous_state st h = (none, st)) ∧
    (∀ s1 s2 : WindowState, histLookup st h = some [s1, s2] →
      get_previous_state st h = (some s1, histSet st h [s1]) ∧
      get_previous_state (histSet st h [s1]) h = (none, histSet st h [s1])) ∧
    (∀ (cfg : Config) (env : WinEnv) (hwndOpt : Option ℤ) (s : WindowState),
      getValidHwnd cfg env hwndOpt = some h →
      (get_previous_state st h).1 = some s →
      undo cfg env hwndOpt st =
        ⟨some true, (get_previous_state st h).2,
         [applyPosition s.rect (env.frameOffsets h)]⟩) := by
  refine ⟨fun hfew => ?_, fun s1 s2 htwo => ⟨?_, ?_⟩, fun cfg env hwndOpt s hv hs => ?_⟩
  · cases hq : histLookup st h with
    | none => simp [get_previous_state, hq]
    | some q => simp [get_previous_state, hq, hfew q hq]
  · simp [get_previous_state, htwo]
  · simp [get_previous_state, histLookup_histSet_self st h [s1]]
  · rcases hgp : get_previous_state st h with ⟨fst, snd⟩
    rw [hgp] at hs
    simp only at hs
    subst hs
    simp [undo, hv, hgp]

-- ════════════════════════════════════════════════════════════════════════════
-- C5: bounded FIFO history
-- ════════════════════════════════════════════════════════════════════════════

/-- A sequence of `save_state(h)` calls; each element of `snaps` supplies the
rectangle returned by the OS query and the clock tick of one call. -/
def saveMany (m : ℕ) (st : Hist) (h : ℤ) (snaps : List (Rect × ℤ)) : Hist :=
  snaps.foldl (fun s p => save_state m s h (some p.1) p.2) st

/-- The `WindowState` snapshots those calls construct, in call order. -/
def snapsStates (h : ℤ) (snaps : List (Rect × ℤ)) : List WindowState :=
  snaps.map (fun p => ⟨h, p.1, p.2⟩)

/-- Folding the deque append over the snapshots. -/
def listPush (m : ℕ) (h : ℤ) (q : List WindowState) (snaps : List (Rect × ℤ)) :
    List WindowState :=
  snaps.foldl (fun q p => pushMax m q ⟨h, p.1, p.2⟩) q

/-- The states returned by `n` successive `get_previous_state(h)` calls
(stopping once a call returns none: by C10 such a call leaves the history
unchanged, so every later call returns none as well). -/
def getPrevResults : ℕ → Hist → ℤ → List WindowState
  | 0, _, _ => []
  | n + 1, st, h =>
    match get_previous_state st h with
    | (none, _) => []
    | (some s, st') => s :: getPrevResults n st' h

theorem length_pushMax (m : ℕ) (q : List WindowState) (s : WindowState) :
    (pushMax m q s).length = min m (q.length + 1) := by
  simp [pushMax]
  omega

theorem histLookup_save_state_self (m : ℕ) (st : Hist) (h : ℤ) (r : Rect) (now : ℤ) :
    histLookup (save_state m st h (some r) now) h =
      some (pushMax m ((histLookup st h).getD []) ⟨h, r, now⟩) := by
  simp [save_state, histLookup_histSet_self]

theorem histLookup_save_state_ne (m : ℕ) (st : Hist) (h h' : ℤ) (info : Option Rect)
    (now : ℤ) (hne : h' ≠ h) :
    histLookup (save_state m st h info now) h' = histLookup st h' := by
  cases info with
  | none => rfl
  | some r => exact histLookup_histSet_ne st h h' _ hne

theorem histLookup_saveMany (m : ℕ) (h : ℤ) :
    ∀ (snaps : List (Rect × ℤ)) (st : Hist) (q : List WindowState),
      histLookup st h = some q →
      histLookup (saveMany m st h snaps) h = some (listPush m h q snaps) := by
  intro snaps
  induction snaps with
  | nil => intro st q hq; simpa [saveMany, listPush] using hq
  | cons p rest ih =>
    intro st q hq
    have hstep : saveMany m st h (p :: rest) =
        saveMany m (save_state m st h (some p.1) p.2) h rest := rfl
    rw [hstep, ih _ _ (by rw [histLookup_save_state_self, hq])]
    rfl

theorem listPush_eq_drop (m : ℕ) (h : ℤ) :
    ∀ (snaps : List (Rect × ℤ)) (q : List WindowState), q.length ≤ m →
      listPush m h q snaps =
        (q ++ snapsStates h snaps).drop (q.length + snaps.length - m) := by
  intro snaps
  induction snaps with
  | nil =>
    intro q hq
    simp [listPush, snapsStates, Nat.sub_eq_zero_of_le hq]
  | cons p rest ih =>
    intro q hq
    have hstep : listPush m h q (p :: rest) =
        listPush m h (pushMax m q ⟨h, p.1, p.2⟩) rest := rfl
    have hle : (pushMax m q ⟨h, p.1, p.2⟩).length ≤ m := by
      rw [length_pushMax]; omega
    rw [hstep, ih _ hle, length_pushMax]
    unfold pushMax
    rw [← @List.drop_append_of_le_length _ _ (snapsStates h rest) _ (by simp),
      List.drop_drop]
    have hlist : (q ++ [(⟨h, p.1, p.2⟩ : WindowState)]) ++ snapsStates h rest =
        q ++ snapsStates h (p :: rest) := by
      simp [snapsStates]
    rw [hlist]
    simp only [List.length_cons]
    congr 1
    omega

theorem mem_of_getLast?_eq_some {l : List WindowState} {a : WindowState}
    (hl : l.getLast? = some a) : a ∈ l := by
  obtain ⟨ys, rfl⟩ := List.getLast?_eq_some_iff.mp hl
  simp

theorem getPrevResults_subset (h : ℤ) :
    ∀ (n : ℕ) (st : Hist) (s : WindowState), s ∈ getPrevResults n st h →
      s ∈ (histLookup st h).getD [] := by
  intro n
  induction n with
  | zero => intro st s hs; simp [getPrevResults] at hs
  | succ n ih =>
    intro st s hs
    rw [getPrevResults] at hs
    rcases hgp : get_previous_state st h with ⟨fst, snd⟩
    rw [hgp] at hs
    cases fst with
    | none => simp at hs
    | some s0 =>
      simp only [List.mem_cons] at hs
      cases hq : histLookup st h with
      | none => simp [get_previous_state, hq] at hgp
      | some q =>
        by_cases hlen : q.length < 2
        · simp [get_previous_state, hq, hlen] at hgp
        · have hgp' : (q.dropLast.getLast?, histSet st h q.dropLast) = (some s0, snd) := by
            rw [← hgp]; simp [get_previous_state, hq, hlen]
          have h1 : q.dropLast.getLast? = some s0 := congrArg Prod.fst hgp'
          have h2 : histSet st h q.dropLast = snd := congrArg Prod.snd hgp'
          have hsub : q.dropLast ⊆ q := (List.dropLast_sublist q).subset
          rcases hs with hs | hs
          · subst hs
            simp [hq]
            exact hsub (mem_of_getLast?_eq_some h1)
          · have := ih snd s hs
            rw [← h2, histLookup_histSet_self] at this
            simp only [Option.getD_some] at this
            simp [hq]
            exact hsub this

/-- C5: a `save_state` call keeps every per-handle queue within the capacity
`m` (= `history_size`), and after `m + 1` saves for a fresh handle the queue
holds exactly the last `m` snapshots — the first (oldest) snapshot has been
evicted and no sequence of `get_previous_state(h)` calls can ever return it. -/
theorem C5_bounded_fifo (m : ℕ) (st : Hist) (h : ℤ) :
    (∀ (info : Option Rect) (now : ℤ),
      (∀ h' q, histLookup st h' = some q → q.length ≤ m) →
      ∀ h' q, histLookup (save_state m st h info now) h' = some q → q.length ≤ m) ∧
    (∀ (p : Rect × ℤ) (rest : List (Rect × ℤ)),
      histLookup st h = none → rest.length = m →
      histLookup (saveMany m st h (p :: rest)) h = some (snapsStates h rest) ∧
      (∀ n, getPrevResults n (saveMany m st h (p :: rest)) h ⊆ snapsStates h rest) ∧
      ((⟨h, p.1, p.2⟩ : WindowState) ∉ snapsStates h rest →
        ∀ n, (⟨h, p.1, p.2⟩ : WindowState) ∉
          getPrevResults n (saveMany m st h (p :: rest)) h)) := by
  constructor
  · intro info now hbnd h' q hq
    cases info with
    | none => exact hbnd h' q hq
    | some r =>
      by_cases hh : h' = h
      · subst hh
        rw [histLookup_save_state_self] at hq
        obtain rfl : q = pushMax m ((histLookup st h').getD []) ⟨h', r, now⟩ :=
          (Option.some_injective _ hq).symm
        rw [length_pushMax]
        omega
      · rw [histLookup_save_state_ne m st h h' _ now hh] at hq
        exact hbnd h' q hq
  · intro p rest hnone hlen
    have hq0 : histLookup (save_state m st h (some p.1) p.2) h =
        some (pushMax m [] ⟨h, p.1, p.2⟩) := by
      rw [histLookup_save_state_self, hnone]
      rfl
    have hqueue : histLookup (saveMany m st h (p :: rest)) h =
        some (snapsStates h rest) := by
      have hstep : saveMany m st h (p :: rest) =
          saveMany m (save_state m st h (some p.1) p.2) h rest := rfl
      rw [hstep, histLookup_saveMany m h rest _ _ hq0,
        listPush_eq_drop m h rest _ (by rw [length_pushMax]; omega)]
      have harith : (pushMax m [] (⟨h, p.1, p.2⟩ : WindowState)).length + rest.length - m =
          (pushMax m [] (⟨h, p.1, p.2⟩ : WindowState)).length := by
        rw [length_pushMax]; omega
      rw [harith, List.drop_left]
    refine ⟨hqueue, fun n s hs => ?_, fun hnotin n hmem => ?_⟩
    · have := getPrevResults_subset h n _ s hs
      rw [hqueue] at this
      simpa using this
    · have := getPrevResults_subset h n _ _ hmem
      rw [hqueue] at this
      exact hnotin (by simpa using this)

-- ════════════════════════════════════════════════════════════════════════════
-- C7: cyclic monitor navigation
-- ════════════════════════════════════════════════════════════════════════════

theorem get_next_monitor_get (ms : List MonitorInfo) (nd : ms.Nodup)
    (i : ℕ) (hi : i < ms.length) :
    get_next_monitor ms (ms.get ⟨i, hi⟩) =
      ms.get ⟨(i + 1) % ms.length, Nat.mod_lt _ (by omega)⟩ := by
  have hmem : ms.get ⟨i, hi⟩ ∈ ms := List.get_mem ms i hi
  have hie : ms.isEmpty = false := by
    cases ms
    · simp at hi
    · simp
  unfold get_next_monitor
  rw [hie]
  simp only [Bool.false_eq_true, if_false, if_pos hmem]
  rw [List.get_indexOf nd ⟨i, hi⟩]
  rw [List.getD_eq_getElem _ _ (Nat.mod_lt _ (by omega))]
  simp [List.get_eq_getElem]

theorem iterate_next_monitor (ms : List MonitorInfo) (nd : ms.Nodup) :
    ∀ (k i : ℕ) (hi : i < ms.length),
      (get_next_monitor ms)^[k] (ms.get ⟨i, hi⟩) =
        ms.get ⟨(i + k) % ms.length, Nat.mod_lt _ (by omega)⟩ := by
  intro k
  induction k with
  | zero =>
    intro i hi
    simp [Nat.mod_eq_of_lt hi]
  | succ k ih =>
    intro i hi
    rw [Function.iterate_succ_apply, get_next_monitor_get ms nd i hi,
      ih ((i + 1) % ms.length) (Nat.mod_lt _ (by omega))]
    have hmods : ((i + 1) % ms.length + k) % ms.length = (i + (k + 1)) % ms.length := by
      rw [Nat.mod_add_mod]
      have : i + 1 + k = i + (k + 1) := by omega
      rw [this]
    simp only [hmods]

/-- C7: for a duplicate-free non-empty monitor list, `get_next_monitor`
iterated `N` times (`N` = monitor count) from any member returns that member;
and on a monitor absent from the current list both `get_next_monitor` and
`get_prev_monitor` fall back defensively (the `except` branch returns the
first monitor) instead of raising. -/
theorem C7_monitor_cycle :
    (∀ (ms : List MonitorInfo) (mo : MonitorInfo), ms.Nodup → mo ∈ ms →
      (get_next_monitor ms)^[ms.length] mo = mo) ∧
    (∀ (ms : List MonitorInfo) (mo : MonitorInfo), ms ≠ [] → mo ∉ ms →
      get_next_monitor ms mo = ms.headD mo ∧ get_prev_monitor ms mo = ms.headD mo) := by
  constructor
  · intro ms mo nd hmem
    obtain ⟨n, rfl⟩ := List.mem_iff_get.mp hmem
    rw [iterate_next_monitor ms nd ms.length n.1 n.2]
    congr 1
    rw [Fin.mk.injEq]
    rw [Nat.add_mod_right]
    exact Nat.mod_eq_of_lt n.2
  · intro ms mo hne hnotin
    have hie : ms.isEmpty = false := by
      cases ms
      · simp at hne
      · simp
    constructor <;> simp [get_next_monitor, get_prev_monitor, hie, hnotin]

-- ════════════════════════════════════════════════════════════════════════════
-- C6: animation engine
-- ════════════════════════════════════════════════════════════════════════════

theorem easeOutCubic_one : easeOutCubic 1 = 1 := by
  norm_num [easeOutCubic]

theorem interpolated_one (a b : Rect) : interpolated a b 1 = b := by
  unfold interpolated
  have hx : (a.x : ℚ) + ((b.x : ℚ) - (a.x : ℚ)) * 1 = ((b.x : ℚ)) := by ring
  have hy : (a.y : ℚ) + ((b.y : ℚ) - (a.y : ℚ)) * 1 = ((b.y : ℚ)) := by ring
  have hw : (a.width : ℚ) + ((b.width : ℚ) - (a.width : ℚ)) * 1 = ((b.width : ℚ)) := by ring
  have hh : (a.height : ℚ) + ((b.height : ℚ) - (a.height : ℚ)) * 1 = ((b.height : ℚ)) := by
    ring
  rw [hx, hy, hw, hh, pyInt_intCast, pyInt_intCast, pyInt_intCast, pyInt_intCast]

/-- C6: with animation disabled, `animate` applies `end_rect` in a single
positioning step; with animation enabled and `s > 0` configured steps it
applies exactly `s` rectangles, the `i`-th being the x/y/width/height values
interpolated linearly in the eased parameter `1-(1-i/s)³` with the frame
offsets incorporated into every applied step, and the final applied rectangle
is exactly `end_rect` (with the same offsets). -/
theorem C6_animate_steps (cfg : Config) (start_ end_ : Rect) (off : FrameOffsets) :
    (cfg.animation_enabled = false →
      animate cfg start_ end_ off = some [applyPosition end_ off]) ∧
    (cfg.animation_enabled = true → 0 < cfg.animation_steps →
      animate cfg start_ end_ off =
        some ((List.range cfg.animation_steps.toNat).map (fun i : ℕ =>
          applyPosition (interpolated start_ end_
            (easeOutCubic (((i : ℚ) + 1) / (cfg.animation_steps : ℚ)))) off)) ∧
      ((List.range cfg.animation_steps.toNat).map (fun i : ℕ =>
          applyPosition (interpolated start_ end_
            (easeOutCubic (((i : ℚ) + 1) / (cfg.animation_steps : ℚ)))) off)).length =
        cfg.animation_steps.toNat ∧
      ((List.range cfg.animation_steps.toNat).map (fun i : ℕ =>
          applyPosition (interpolated start_ end_
            (easeOutCubic (((i : ℚ) + 1) / (cfg.animation_steps : ℚ)))) off)).getLast? =
        some (applyPosition end_ off)) := by
  constructor
  · intro hdis
    simp [animate, hdis]
  · intro hen hpos
    have hzero : ¬cfg.animation_steps = 0 := by omega
    refine ⟨by simp [animate, hen, hzero], by simp, ?_⟩
    have htn : 0 < cfg.animation_steps.toNat := by omega
    obtain ⟨k, hk⟩ : ∃ k, cfg.animation_steps.toNat = k + 1 :=
      ⟨cfg.animation_steps.toNat - 1, by omega⟩
    rw [hk, List.range_succ, List.map_append, List.map_singleton, List.getLast?_concat]
    have hcast : ((k : ℚ) + 1) = (cfg.animation_steps : ℚ) := by
      have h1 : ((k + 1 : ℕ) : ℤ) = cfg.animation_steps := by
        rw [← hk]
        exact Int.toNat_of_nonneg (by omega)
      have h2 : (((k + 1 : ℕ) : ℤ) : ℚ) = ((cfg.animation_steps : ℤ) : ℚ) := by rw [h1]
      push_cast at h2
      linarith
    have hds : (cfg.animation_steps : ℚ) / (cfg.animation_steps : ℚ) = 1 := by
      apply div_self
      exact_mod_cast hzero
    rw [hcast, hds, easeOutCubic_one, interpolated_one]

-- ════════════════════════════════════════════════════════════════════════════
-- C2: orchestrator pipeline and failure atomicity
-- ════════════════════════════════════════════════════════════════════════════

theorem animateStep_res_ne_false (cfg : Config) (env : WinEnv) (hwnd : ℤ) (st1 : Hist)
    (current target : Rect) :
    (animateStep cfg env hwnd st1 current target).res ≠ some false := by
  unfold animateStep
  cases animate cfg current target (env.frameOffsets hwnd) <;> simp

/-- C2 (amended): each of `tile`, `grid` and `move_to_monitor` runs
Validate → Snapshot History → Resolve Monitor → Compute Target →
Restore-if-maximized → Animate (history is snapshotted immediately after
validation, before monitor resolution).  A validation failure aborts with a
failure result, no movement and the history untouched; every later failure
result (no monitor resolved, or window info unavailable in
`move_to_monitor`) also applies no movement, but leaves exactly the one
history snapshot taken after validation. -/
theorem C2_op_pipeline (cfg : Config) (env : WinEnv) (ms : List MonitorInfo)
    (mode : TileMode) (row col rows cols : ℤ) (direction : String)
    (hwndOpt : Option ℤ) (st : Hist) :
    (getValidHwnd cfg env hwndOpt = none →
      tile cfg env ms mode hwndOpt st = ⟨some false, st, []⟩ ∧
      grid cfg env ms row col rows cols hwndOpt st = ⟨some false, st, []⟩ ∧
      move_to_monitor cfg env ms direction hwndOpt st = ⟨some false, st, []⟩) ∧
    (∀ h, getValidHwnd cfg env hwndOpt = some h →
      get_monitor_for_window env ms h = none →
      tile cfg env ms mode hwndOpt st =
        ⟨some false,
         save_state cfg.history_size st h ((env.windowInfo h).map (·.rect)) env.now, []⟩ ∧
      grid cfg env ms row col rows cols hwndOpt st =
        ⟨some false,
         save_state cfg.history_size st h ((env.windowInfo h).map (·.rect)) env.now, []⟩ ∧
      move_to_monitor cfg env ms direction hwndOpt st =
        ⟨some false,
         save_state cfg.history_size st h ((env.windowInfo h).map (·.rect)) env.now, []⟩) ∧
    ((tile cfg env ms mode hwndOpt st).res = some false →
      (tile cfg env ms mode hwndOpt st).moves = [] ∧
      ((tile cfg env ms mode hwndOpt st).hist = st ∨
        ∃ h, getValidHwnd cfg env hwndOpt = some h ∧
          (tile cfg env ms mode hwndOpt st).hist =
            save_state cfg.history_size st h ((env.windowInfo h).map (·.rect)) env.now)) ∧
    ((grid cfg env ms row col rows cols hwndOpt st).res = some false →
      (grid cfg env ms row col rows cols hwndOpt st).moves = [] ∧
      ((grid cfg env ms row col rows cols hwndOpt st).hist = st ∨
        ∃ h, getValidHwnd cfg env hwndOpt = some h ∧
          (grid cfg env ms row col rows cols hwndOpt st).hist =
            save_state cfg.history_size st h ((env.windowInfo h).map (·.rect)) env.now)) ∧
    ((move_to_monitor cfg env ms direction hwndOpt st).res = some false →
      (move_to_monitor cfg env ms direction hwndOpt st).moves = [] ∧
      ((move_to_monitor cfg env ms direction hwndOpt st).hist = st ∨
        ∃ h, getValidHwnd cfg env hwndOpt = some h ∧
          (move_to_monitor cfg env ms direction hwndOpt st).hist =
            save_state cfg.history_size st h ((env.windowInfo h).map (·.rect)) env.now)) := by
  refine ⟨fun hv => ⟨?_, ?_, ?_⟩, fun h hv hmon => ⟨?_, ?_, ?_⟩, ?_, ?_, ?_⟩
  · simp [tile, hv]
  · simp [grid, hv]
  · simp [move_to_monitor, hv]
  · simp [tile, hv, hmon]
  · simp [grid, hv, hmon]
  · simp [move_to_monitor, hv, hmon]
  · intro hres
    cases hv : getValidHwnd cfg env hwndOpt with
    | none => simp [tile, hv]
    | some h =>
      simp only [tile, hv] at hres ⊢
      cases hmon : get_monitor_for_window env ms h with
      | none =>
        simp only [hmon]
        exact ⟨trivial, Or.inr ⟨h, rfl, rfl⟩⟩
      | some mon =>
        simp only [hmon] at hres
        cases hw : env.windowInfo h with
        | none => simp [hw] at hres
        | some info =>
          simp only [hw] at hres
          exact absurd hres (animateStep_res_ne_false _ _ _ _ _ _)
  · intro hres
    cases hv : getValidHwnd cfg env hwndOpt with
    | none => simp [grid, hv]
    | some h =>
      simp only [grid, hv] at hres ⊢
      cases hmon : get_monitor_for_window env ms h with
      | none =>
        simp only [hmon]
        exact ⟨trivial, Or.inr ⟨h, rfl, rfl⟩⟩
      | some mon =>
        simp only [hmon] at hres
        cases hw : env.windowInfo h with
        | none => simp [hw] at hres
        | some info =>
          simp only [hw] at hres
          exact absurd hres (animateStep_res_ne_false _ _ _ _ _ _)
  · intro hres
    cases hv : getValidHwnd cfg env hwndOpt with
    | none => simp [move_to_monitor, hv]
    | some h =>
      simp only [move_to_monitor, hv] at hres ⊢
      cases hmon : get_monitor_for_window env ms h with
      | none =>
        simp only [hmon]
        exact ⟨trivial, Or.inr ⟨h, rfl, rfl⟩⟩
      | some mon =>
        simp only [hmon] at hres ⊢
        cases hw : env.windowInfo h with
        | none =>
          simp only [hw]
          exact ⟨trivial, Or.inr ⟨h, rfl, by rw [hw]⟩⟩
        | some info =>
          simp only [hw] at hres
          exact absurd hres (animateStep_res_ne_false _ _ _ _ _ _)

/-- An environment in which window 5 is the valid foreground window with a
known rectangle, but the monitor list is empty: `tile` then fails after having
already saved a history snapshot. -/
def failEnv : WinEnv where
  foreground := 5
  isWindow := fun _ => true
  isVisible := fun _ => true
  isToolWindow := fun _ => false
  isChildWindow := fun _ => false
  className := fun _ => "Notepad"
  windowTitle := fun _ => "Untitled - Notepad"
  monitorFromWindow := fun _ => none
  windowInfo := fun h => some ⟨h, "Untitled - Notepad", "Notepad", ⟨1, 2, 300, 200⟩, 99,
    true, false, false⟩
  frameOffsets := fun _ => ⟨0, 0, 0, 0⟩
  isMaximized := fun _ => false
  now := 7

/-- C2 counterexample: with no monitor resolvable, `tile` returns a failure
result yet the per-window history is NOT as it was before the call — the
snapshot taken before monitor resolution remains. -/
theorem C2_counterexample :
    (tile defaultConfig failEnv [] .LEFT_HALF none []).res = some false ∧
    (tile defaultConfig failEnv [] .LEFT_HALF none []).hist ≠ ([] : Hist) := by
  decide

-- ════════════════════════════════════════════════════════════════════════════
-- Concrete witness data
-- ════════════════════════════════════════════════════════════════════════════

/-- A first sample history snapshot for handle 1. -/
def wsA : WindowState := ⟨1, ⟨0, 0, 100, 100⟩, 100⟩

/-- A second sample history snapshot for handle 1. -/
def wsB : WindowState := ⟨1, ⟨5, 5, 200, 150⟩, 200⟩

/-- `failEnv` with every handle reported as not-a-window (validation fails). -/
def invalidEnv : WinEnv := { failEnv with isWindow := fun _ => false }

/-- A primary monitor at the origin. -/
def monA : MonitorInfo := ⟨100, ⟨0, 0, 1920, 1040⟩, ⟨0, 0, 1920, 1080⟩, true, 1⟩

/-- A secondary monitor to the right. -/
def monB : MonitorInfo := ⟨200, ⟨1920, 0, 1280, 984⟩, ⟨1920, 0, 1280, 1024⟩, false, 1⟩

/-- A monitor absent from the sample list. -/
def monC : MonitorInfo := ⟨300, ⟨0, 0, 10, 10⟩, ⟨0, 0, 10, 10⟩, false, 1⟩

/-- A configuration with animation enabled and two animation steps. -/
def animCfg : Config := { defaultConfig with animation_enabled := true, animation_steps := 2 }

/-- Sample animation start rectangle. -/
def rStart : Rect := ⟨0, 0, 100, 100⟩

/-- Sample animation end rectangle. -/
def rEnd : Rect := ⟨50, 40, 200, 300⟩

/-- Sample frame offsets. -/
def offW : FrameOffsets := ⟨7, 0, 8, 5⟩

/-- C2 witness: the pipeline theorem applied to a concrete invalid-window
environment (history untouched) and to `failEnv` (snapshot retained). -/
theorem C2_witness :
    tile defaultConfig invalidEnv [] .LEFT_HALF none [] = ⟨some false, [], []⟩ ∧
    grid defaultConfig invalidEnv [] 0 1 2 3 none [] = ⟨some false, [], []⟩ ∧
    move_to_monitor defaultConfig invalidEnv [] "next" none [] = ⟨some false, [], []⟩ ∧
    tile defaultConfig failEnv [] .LEFT_HALF none [] =
      ⟨some false,
       save_state defaultConfig.history_size [] 5 ((failEnv.windowInfo 5).map (·.rect))
         failEnv.now, []⟩ := by
  refine ⟨?_, ?_, ?_, ?_⟩
  · exact ((C2_op_pipeline defaultConfig invalidEnv [] .LEFT_HALF 0 1 2 3 "next" none []).1
      (by decide)).1
  · exact ((C2_op_pipeline defaultConfig invalidEnv [] .LEFT_HALF 0 1 2 3 "next" none []).1
      (by decide)).2.1
  · exact ((C2_op_pipeline defaultConfig invalidEnv [] .LEFT_HALF 0 1 2 3 "next" none []).1
      (by decide)).2.2
  · exact ((C2_op_pipeline defaultConfig failEnv [] .LEFT_HALF 0 1 2 3 "next" none []).2.1
      5 (by decide) (by decide)).1

/-- C4 witness: the undo semantics applied to concrete two-entry histories. -/
theorem C4_witness :
    get_previous_state ([] : Hist) 5 = (none, []) ∧
    get_previous_state [(1, [wsA, wsB])] 1 = (some wsA, histSet [(1, [wsA, wsB])] 1 [wsA]) ∧
    undo defaultConfig failEnv (some 1) [(1, [wsA, wsB])] =
      ⟨some true, (get_previous_state [(1, [wsA, wsB])] 1).2,
       [applyPosition wsA.rect (failEnv.frameOffsets 1)]⟩ := by
  refine ⟨(C4_undo_one_level [] 5).1 ?_,
    ((C4_undo_one_level [(1, [wsA, wsB])] 1).2.1 wsA wsB (by decide)).1,
    (C4_undo_one_level [(1, [wsA, wsB])] 1).2.2 defaultConfig failEnv (some 1) wsA
      (by decide) (by decide)⟩
  intro q hq
  simp [histLookup] at hq

/-- C5 witness: capacity 1, two saves for handle 1 — the queue keeps only the
second snapshot, the first is unreachable by three undo calls, and a single
save respects the bound. -/
theorem C5_witness :
    histLookup (saveMany 1 [] 1 [(⟨0, 0, 100, 100⟩, 100), (⟨5, 5, 200, 150⟩, 200)]) 1 =
      some (snapsStates 1 [(⟨5, 5, 200, 150⟩, 200)]) ∧
    (⟨1, ⟨0, 0, 100, 100⟩, 100⟩ : WindowState) ∉
      getPrevResults 3 (saveMany 1 [] 1 [(⟨0, 0, 100, 100⟩, 100), (⟨5, 5, 200, 150⟩, 200)]) 1 ∧
    [(⟨1, ⟨0, 0, 100, 100⟩, 100⟩ : WindowState)].length ≤ 1 := by
  refine ⟨((C5_bounded_fifo 1 [] 1).2 (⟨0, 0, 100, 100⟩, 100) [(⟨5, 5, 200, 150⟩, 200)]
      rfl rfl).1,
    ((C5_bounded_fifo 1 [] 1).2 (⟨0, 0, 100, 100⟩, 100) [(⟨5, 5, 200, 150⟩, 200)]
      rfl rfl).2.2 (by decide) 3,
    (C5_bounded_fifo 1 [] 1).1 (some ⟨0, 0, 100, 100⟩) 100 ?_ 1
      [⟨1, ⟨0, 0, 100, 100⟩, 100⟩] (by decide)⟩
  intro h' q hq
  simp [histLookup] at hq

/-- C6 witness: the animation theorem applied to concrete rectangles, both
with animation disabled and with two enabled steps. -/
theorem C6_witness :
    animate defaultConfig rStart rEnd offW = some [applyPosition rEnd offW] ∧
    animate animCfg rStart rEnd offW =
      some ((List.range animCfg.animation_steps.toNat).map (fun i : ℕ =>
        applyPosition (interpolated rStart rEnd
          (easeOutCubic (((i : ℚ) + 1) / (animCfg.animation_steps : ℚ)))) offW)) ∧
    ((List.range animCfg.animation_steps.toNat).map (fun i : ℕ =>
        applyPosition (interpolated rStart rEnd
          (easeOutCubic (((i : ℚ) + 1) / (animCfg.animation_steps : ℚ)))) offW)).getLast? =
      some (applyPosition rEnd offW) := by
  exact ⟨(C6_animate_steps defaultConfig rStart rEnd offW).1 rfl,
    ((C6_animate_steps animCfg rStart rEnd offW).2 rfl (by decide)).1,
    ((C6_animate_steps animCfg rStart rEnd offW).2 rfl (by decide)).2.2⟩

/-- C7 witness: a two-monitor list cycles back in two steps from the primary,
and an unknown monitor falls back to the first monitor. -/
theorem C7_witness :
    (get_next_monitor [monA, monB])^[2] monA = monA ∧
    get_next_monitor [monA, monB] monC = [monA, monB].headD monC ∧
    get_prev_monitor [monA, monB] monC = [monA, monB].headD monC := by
  refine ⟨C7_monitor_cycle.1 [monA, monB] monA (by decide) (by decide), ?_, ?_⟩
  · exact (C7_monitor_cycle.2 [monA, monB] monC (by decide) (by decide)).1
  · exact (C7_monitor_cycle.2 [monA, monB] monC (by decide) (by decide)).2

/-- C10 witness: the frame conditions applied to concrete histories — a
foreign handle's queue is untouched, and a none-result leaves the history
unchanged. -/
theorem C10_witness :
    histLookup (get_previous_state [(1, [wsA, wsB])] 1).2 2 =
      histLookup [(1, [wsA, wsB])] 2 ∧
    (get_previous_state [(2, [wsA])] 2).2 = [(2, [wsA])] := by
  exact ⟨(C10_get_previous_state_frame [(1, [wsA, wsB])] 1).2.1 2 (by decide),
    (C10_get_previous_state_frame [(2, [wsA])] 2).1 (by decide)⟩
